import Mathlib

/-!
Verification development for the `astrbot_plugin_topic_starter` repository.

The Python sources under `topic_starter/` (`config.py`, `models.py`,
`services.py`, `kv_store.py`) and the orchestrator in `main.py` are shallowly
embedded below.  Python `float` values are modelled as exact rationals (`ℚ`),
Python `int` as `ℤ`, and Python strings as Lean `String`.  Loosely typed
configuration values are modelled by the `PyVal` inductive.  External effects
(the key-value backend, the message transport, the language-model call and the
random source) are made explicit: buckets are passed as values, and random
draws / transport outcomes are extra parameters.
-/

namespace TopicStarter

/-- Model of a loosely typed Python value as found in the plugin's raw
configuration mapping: `None`, `bool`, `int`, `float`, `str`, `list`, `dict`
(string-keyed). -/
inductive PyVal where
  | none
  | bool (b : Bool)
  | int (n : ℤ)
  | float (q : ℚ)
  | str (s : String)
  | list (xs : List PyVal)
  | map (kvs : List (String × PyVal))

/-- Characters stripped by Python `str.strip()` (the ASCII whitespace set;
the rare non-ASCII Unicode whitespace characters are not modelled). -/
def isPyWhitespace (c : Char) : Bool :=
  c = ' ' ∨ c = '\t' ∨ c = '\n' ∨ c = '\r' ∨ c = Char.ofNat 11 ∨ c = Char.ofNat 12

/-- Python `str.strip()`. -/
def pyStrip (s : String) : String :=
  String.mk (((s.toList.dropWhile isPyWhitespace).reverse.dropWhile isPyWhitespace).reverse)

/-- Python `str.lower()` (ASCII case folding). -/
def pyLower (s : String) : String :=
  String.mk (s.toList.map Char.toLower)

/-- A single-quote character as a string (used by the Python `repr` of
strings inside containers). -/
def singleQuote : String := String.singleton (Char.ofNat 39)

/-- Rendering of a Python float.  Python prints the shortest decimal form of
the IEEE double; in the rational model we print `n.0` for integral values and
a fraction otherwise.  No claim depends on this rendering: it only feeds
`str()` of values that are not well-formed configuration entries. -/
def floatStr (q : ℚ) : String :=
  if q.den = 1 then toString q.num ++ ".0" else toString q

mutual

/-- Python `repr()` of a value (element rendering used by `str()` of
containers). -/
def pyRepr : PyVal → String
  | .none => "None"
  | .bool true => "True"
  | .bool false => "False"
  | .int n => toString n
  | .float q => floatStr q
  | .str s => singleQuote ++ s ++ singleQuote
  | .list xs => "[" ++ pyReprList xs ++ "]"
  | .map kvs => "\x7b" ++ pyReprMap kvs ++ "\x7d"

/-- Comma-separated `repr` of list elements. -/
def pyReprList : List PyVal → String
  | [] => ""
  | [x] => pyRepr x
  | x :: y :: xs => pyRepr x ++ ", " ++ pyReprList (y :: xs)

/-- Comma-separated `repr` of dict entries. -/
def pyReprMap : List (String × PyVal) → String
  | [] => ""
  | [(k, v)] => singleQuote ++ k ++ singleQuote ++ ": " ++ pyRepr v
  | (k, v) :: e :: kvs =>
    singleQuote ++ k ++ singleQuote ++ ": " ++ pyRepr v ++ ", " ++ pyReprMap (e :: kvs)

end

/-- Python `str()` of a value: the identity on strings, `repr`-based
otherwise. -/
def pyStr : PyVal → String
  | .str s => s
  | v => pyRepr v

/-- Digit run with Python underscore rules: an underscore must be followed by
a digit (the caller guarantees the run starts with a digit). Accumulates the
value in `acc`. -/
def pyDigits : List Char → ℕ → Option ℕ
  | [], acc => some acc
  | c :: cs, acc =>
    if c.isDigit then pyDigits cs (10 * acc + (c.toNat - 48))
    else if c = '_' then
      match cs with
      | d :: _ => if d.isDigit then pyDigits cs acc else none
      | [] => none
    else none

/-- Nonempty digit run (first character must be a digit). -/
def pyNatDigits (cs : List Char) : Option ℕ :=
  match cs with
  | [] => none
  | c :: _ => if c.isDigit then pyDigits cs 0 else none

/-- Python `int(str)`: strip, optional sign, digits with underscores. -/
def pyIntOfStr (s : String) : Option ℤ :=
  match (pyStrip s).toList with
  | [] => none
  | c :: rest =>
    if c = '+' then (pyNatDigits rest).map (fun n => (n : ℤ))
    else if c = '-' then (pyNatDigits rest).map (fun n => -(n : ℤ))
    else (pyNatDigits (c :: rest)).map (fun n => (n : ℤ))

/-- Python `int(float)`: truncation toward zero. -/
def pyTrunc (q : ℚ) : ℤ :=
  if 0 ≤ q then ⌊q⌋ else ⌈q⌉

/-- Python `int(value)`; `none` models the `TypeError`/`ValueError` raised on
unconvertible values. -/
def pyInt : PyVal → Option ℤ
  | .bool b => some (if b then 1 else 0)
  | .int n => some n
  | .float q => some (pyTrunc q)
  | .str s => pyIntOfStr s
  | _ => none

/-- Splits a character list at the first character satisfying `p`; `none`
when no character matches. -/
def splitAtChar (p : Char → Bool) : List Char → Option (List Char × List Char)
  | [] => none
  | c :: cs =>
    if p c then some ([], cs)
    else
      match splitAtChar p cs with
      | some (a, b) => some (c :: a, b)
      | none => none

/-- Digit run that also counts digits (for fractional parts); underscore
rules as in `pyDigits`. -/
def pyCountedDigits : List Char → ℕ → ℕ → Option (ℕ × ℕ)
  | [], acc, len => some (acc, len)
  | c :: cs, acc, len =>
    if c.isDigit then pyCountedDigits cs (10 * acc + (c.toNat - 48)) (len + 1)
    else if c = '_' then
      match cs with
      | d :: _ => if d.isDigit then pyCountedDigits cs acc len else none
      | [] => none
    else none

/-- Possibly empty digit run returning (value, digit count); a nonempty run
must start with a digit. -/
def pyDigitRun (cs : List Char) : Option (ℕ × ℕ) :=
  match cs with
  | [] => some (0, 0)
  | c :: _ => if c.isDigit then pyCountedDigits cs 0 0 else none

/-- Mantissa of a Python float literal: `digits`, `digits.digits`,
`.digits` or `digits.`; at least one digit overall. -/
def pyMantissa (cs : List Char) : Option ℚ :=
  match splitAtChar (fun c => c = '.') cs with
  | none =>
    match pyDigitRun cs with
    | some (v, len) => if len = 0 then none else some (v : ℚ)
    | none => none
  | some (ip, fp) =>
    match pyDigitRun ip, pyDigitRun fp with
    | some (iv, il), some (fv, fl) =>
      if il + fl = 0 then none
      else some ((iv : ℚ) + (fv : ℚ) / ((10 : ℚ) ^ fl))
    | _, _ => none

/-- Signed exponent of a Python float literal. -/
def pyExponent (cs : List Char) : Option ℤ :=
  match cs with
  | [] => none
  | c :: rest =>
    if c = '+' then (pyNatDigits rest).map (fun n => (n : ℤ))
    else if c = '-' then (pyNatDigits rest).map (fun n => -(n : ℤ))
    else (pyNatDigits (c :: rest)).map (fun n => (n : ℤ))

/-- Python `float(str)` over the rational model: strip, optional sign,
decimal mantissa, optional `e`/`E` exponent.  The IEEE special spellings
(`inf`, `infinity`, `nan`) have no rational counterpart and are outside the
model (they are mapped to `none`). -/
def pyFloatOfStr (s : String) : Option ℚ :=
  match (pyStrip s).toList with
  | [] => none
  | c :: rest =>
    let signBody : ℚ × List Char :=
      if c = '+' then (1, rest) else if c = '-' then (-1, rest) else (1, c :: rest)
    match splitAtChar (fun ch => ch = 'e' ∨ ch = 'E') signBody.2 with
    | none => (pyMantissa signBody.2).map (fun m => signBody.1 * m)
    | some (mant, ex) =>
      match pyMantissa mant, pyExponent ex with
      | some m, some e => some (signBody.1 * m * (10 : ℚ) ^ e)
      | _, _ => none

/-- Python `float(value)`; `none` models the raised error. -/
def pyFloat : PyVal → Option ℚ
  | .bool b => some (if b then 1 else 0)
  | .int n => some (n : ℚ)
  | .float q => some q
  | .str s => pyFloatOfStr s
  | _ => none

/-- Embedding of `models.as_bool`. -/
def as_bool (v : PyVal) (default : Bool) : Bool :=
  match v with
  | .bool b => b
  | .none => default
  | .int n => decide (n ≠ 0)
  | .float q => decide (q ≠ 0)
  | .str s =>
    let normalized := pyLower (pyStrip s)
    if normalized = "1" ∨ normalized = "true" ∨ normalized = "yes" ∨ normalized = "on" then
      true
    else if normalized = "0" ∨ normalized = "false" ∨ normalized = "no" ∨ normalized = "off" then
      false
    else default
  | _ => default

/-- Embedding of `models.as_non_empty_text`. -/
def as_non_empty_text (v : PyVal) (default : String) : String :=
  match v with
  | .none => default
  | _ =>
    let text := pyStrip (pyStr v)
    if text = "" then default else text

/-- Embedding of `models.as_int`. -/
def as_int (v : PyVal) (default : ℤ) : ℤ :=
  (pyInt v).getD default

/-- Embedding of `models.as_float`. -/
def as_float (v : PyVal) (default : ℚ) : ℚ :=
  (pyFloat v).getD default

/-- Embedding of `models.parse_time_hhmm`: an "HH:MM" string to
minutes-since-midnight, with `default_minutes` on any malformed or
out-of-range input. -/
def parse_time_hhmm (v : PyVal) (default_minutes : ℤ) : ℤ :=
  let text := as_non_empty_text v ""
  if text = "" then default_minutes
  else
    match (text.toList.splitOn ':').map String.mk with
    | [hs, ms] =>
      match pyIntOfStr hs, pyIntOfStr ms with
      | some hour, some minute =>
        if hour < 0 ∨ hour > 23 ∨ minute < 0 ∨ minute > 59 then default_minutes
        else hour * 60 + minute
      | _, _ => default_minutes
    | _ => default_minutes

/-- Embedding of `config.QuietHours` (defaults 23:00 – 08:00, disabled). -/
structure QuietHours where
  enabled : Bool := false
  start_minutes : ℤ := 23 * 60
  end_minutes : ℤ := 8 * 60
deriving DecidableEq, Repr

/-- Embedding of `config.QuietHours.is_active`.  The Python method computes
`current = hour * 60 + minute` from a `datetime`; here `current` is that
minute-of-day value, passed explicitly. -/
def QuietHours.is_active (qh : QuietHours) (current : ℤ) : Bool :=
  if ¬qh.enabled then false
  else if qh.start_minutes = qh.end_minutes then true
  else if qh.start_minutes < qh.end_minutes then
    decide (qh.start_minutes ≤ current ∧ current < qh.end_minutes)
  else decide (current ≥ qh.start_minutes ∨ current < qh.end_minutes)

/-- Embedding of `config.PluginSettings`. -/
structure PluginSettings where
  enabled : Bool
  tick_interval_seconds : ℤ
  trigger_probability : ℚ
  cooldown_seconds : ℤ
  silence_seconds : ℤ
  message_window_size : ℤ
  auto_bind_on_message : Bool
  group_filter_mode : String
  group_filter_ids : List String
  max_message_chars : ℤ
  chat_provider_id : String
  fallback_topics : List String
  quiet_hours : QuietHours

/-- Splits a character list once at the first occurrence of `delim`;
`none` when `delim` does not occur. -/
def splitFirstChar (delim : Char) : List Char → Option (List Char × List Char)
  | [] => none
  | c :: cs =>
    if c = delim then some ([], cs)
    else (splitFirstChar delim cs).map (fun p => (c :: p.1, p.2))

/-- Splits a string once at the first occurrence of the one-character
delimiter `delim` (Python `s.split(delim, 1)`; every delimiter used by the
plugin — `|`, `｜`, `:` — is a single character); `none` when `delim` does
not occur. -/
def splitFirst (s : String) (delim : Char) : Option (String × String) :=
  (splitFirstChar delim s.toList).map (fun p => (String.mk p.1, String.mk p.2))

/-- Embedding of `config._split_group_tokens`: split on runs of commas,
whitespace and full-width commas, keeping nonempty tokens. -/
def split_group_tokens (text : String) : List String :=
  ((text.toList.splitOnP (fun c => c = ',' ∨ c = '，' ∨ isPyWhitespace c)).map
      (fun cs => String.mk cs)).filter (fun t => t ≠ "")

/-- Dedup-and-normalize loop inside `config._normalize_group_ids`: strips a
leading `group:` tag, drops empties and duplicates, and preserves order. -/
def normalizeGroupTokens : List String → List String → List String
  | [], _ => []
  | t :: ts, seen =>
    let v0 := pyStrip t
    let v1 :=
      if (pyLower v0).startsWith "group:" then
        match splitFirst v0 ':' with
        | some (_, r) => pyStrip r
        | none => v0
      else v0
    if v1 = "" ∨ v1 ∈ seen then normalizeGroupTokens ts seen
    else v1 :: normalizeGroupTokens ts (v1 :: seen)

/-- Embedding of `config._normalize_group_ids`. -/
def normalize_group_ids (v : PyVal) : List String :=
  let tokens : List String :=
    match v with
    | .none => []
    | .str s => split_group_tokens s
    | .list xs =>
      xs.flatMap (fun item =>
        let t := as_non_empty_text item ""
        if t = "" then [] else split_group_tokens t)
    | _ => []
  normalizeGroupTokens tokens []

/-- Embedding of `config._normalize_group_filter_mode`. -/
def normalize_group_filter_mode (v : PyVal) : String :=
  let mode := pyLower (as_non_empty_text v "none")
  if mode = "none" ∨ mode = "whitelist" ∨ mode = "blacklist" then mode else "none"

/-- Embedding of `config._normalize_topic_lines`. -/
def normalize_topic_lines (v : PyVal) : List String :=
  match v with
  | .none => []
  | .str _ =>
    let text := as_non_empty_text v ""
    if text = "" then [] else [text]
  | .list xs =>
    xs.filterMap (fun item =>
      let t := as_non_empty_text item ""
      if t = "" then none else some t)
  | _ => []

/-- Python `dict.get(key)` over the raw configuration mapping (first match in
the association list; `None` when the key is absent). -/
def pyGet (raw : List (String × PyVal)) (key : String) : PyVal :=
  (raw.lookup key).getD PyVal.none

/-- Embedding of `config.PluginSettings.from_config`.  The Python
classmethod never raises; the embedding is a total function. -/
def PluginSettings.from_config (config : Option (List (String × PyVal))) : PluginSettings :=
  let raw := config.getD []
  let quiet_hours : QuietHours :=
    match pyGet raw "quiet_hours" with
    | .map kvs =>
      { enabled := as_bool (pyGet kvs "enabled") false
        start_minutes := parse_time_hhmm (pyGet kvs "start") (23 * 60)
        end_minutes := parse_time_hhmm (pyGet kvs "end") (8 * 60) }
    | _ => {}
  let fallback_topics := normalize_topic_lines (pyGet raw "fallback_topics")
  let tick_interval := max (as_int (pyGet raw "tick_interval_seconds") 300) 60
  let trigger_probability := min (max (as_float (pyGet raw "trigger_probability") (3 / 10)) 0) 1
  let cooldown_seconds := max (as_int (pyGet raw "cooldown_seconds") 1800) 0
  let silence_seconds := max (as_int (pyGet raw "silence_seconds") 600) 0
  let message_window_size := max (as_int (pyGet raw "message_window_size") 20) 1
  let group_filter_mode := normalize_group_filter_mode (pyGet raw "group_filter_mode")
  let group_filter_ids := normalize_group_ids (pyGet raw "group_filter_ids")
  let max_message_chars := max (as_int (pyGet raw "max_message_chars") 120) 20
  { enabled := as_bool (pyGet raw "enabled") true
    tick_interval_seconds := tick_interval
    trigger_probability := trigger_probability
    cooldown_seconds := cooldown_seconds
    silence_seconds := silence_seconds
    message_window_size := message_window_size
    auto_bind_on_message := as_bool (pyGet raw "auto_bind_on_message") true
    group_filter_mode := group_filter_mode
    group_filter_ids := group_filter_ids
    max_message_chars := max_message_chars
    chat_provider_id := as_non_empty_text (pyGet raw "chat_provider_id") ""
    fallback_topics := fallback_topics
    quiet_hours := quiet_hours }

/-- Embedding of `models.TopicRecord`. -/
structure TopicRecord where
  id : ℤ
  title : String
  description : String
  priority : ℤ
  enabled : Bool
  use_count : ℤ
  last_used_at : ℚ
  created_at : ℚ
  updated_at : ℚ
deriving DecidableEq, Repr

/-- Embedding of `models.StreamTarget`. -/
structure StreamTarget where
  unified_msg_origin : String
  session_name : String
  platform : String
  is_group : Bool
  active : Bool
  last_user_message_ts : ℚ
  last_bot_initiate_ts : ℚ
  created_at : ℚ
  updated_at : ℚ
deriving DecidableEq, Repr

/-- Embedding of `models.MessageSnapshot`. -/
structure MessageSnapshot where
  unified_msg_origin : String
  sender_id : String
  sender_name : String
  content : String
  created_at : ℚ
deriving DecidableEq, Repr

/-- Embedding of `models.InitiationDecision`. -/
structure InitiationDecision where
  should_send : Bool
  reason : String
deriving DecidableEq, Repr

/-- Embedding of `models.TopicSeed`. -/
structure TopicSeed where
  title : String
  description : String
deriving DecidableEq, Repr

/-- Embedding of `models.SelectedTopic`. -/
structure SelectedTopic where
  topic_id : Option ℤ
  title : String
  description : String
deriving DecidableEq, Repr

/-- Embedding of `services.InitiationDecisionEngine.should_initiate`.
The Python method reads the quiet-hours clock through
`datetime.fromtimestamp(now)`; `nowMinutes` is the minute-of-day of that
local datetime, passed explicitly.  `randomValue` is the value produced by
the engine's random provider (drawn only when the earlier gates pass). -/
def should_initiate (stream : StreamTarget) (settings : PluginSettings) (now : ℚ)
    (nowMinutes : ℤ) (force : Bool) (randomValue : ℚ) : InitiationDecision :=
  if ¬settings.enabled then ⟨false, "plugin_disabled"⟩
  else if ¬stream.active then ⟨false, "stream_inactive"⟩
  else if settings.quiet_hours.is_active nowMinutes ∧ ¬force then ⟨false, "quiet_hours"⟩
  else if force then ⟨true, "force"⟩
  else if stream.last_bot_initiate_ts > 0 ∧
      now - stream.last_bot_initiate_ts < (settings.cooldown_seconds : ℚ) then
    ⟨false, "cooldown"⟩
  else if stream.last_user_message_ts > 0 ∧
      now - stream.last_user_message_ts < (settings.silence_seconds : ℚ) then
    ⟨false, "conversation_active"⟩
  else if randomValue ≥ settings.trigger_probability then ⟨false, "random_gate"⟩
  else ⟨true, "ready"⟩

/-- Staleness in hours, from `services.TopicSelectionService.pick_topic`:
`max(now - topic.last_used_at, 0.0) / 3600.0 if topic.last_used_at else 24.0`
(the Python condition is truthiness, i.e. `last_used_at ≠ 0`). -/
def staleness_hours (t : TopicRecord) (now : ℚ) : ℚ :=
  if t.last_used_at ≠ 0 then max (now - t.last_used_at) 0 / 3600 else 24

/-- Freshness boost, from `pick_topic`: `min(staleness_hours / 24.0, 2.0)`. -/
def freshness_boost (t : TopicRecord) (now : ℚ) : ℚ :=
  min (staleness_hours t now / 24) 2

/-- Per-topic weight, from `pick_topic`:
`max(topic.priority, 1) * (1.0 + freshness_boost)`. -/
def topic_weight (t : TopicRecord) (now : ℚ) : ℚ :=
  ((max t.priority 1 : ℤ) : ℚ) * (1 + freshness_boost t now)

/-- The accumulation loop of `pick_topic`: walk the weighted list, keep the
first topic whose cumulative weight reaches `pick`; `choice` is the value
the Python code pre-assigned (the last topic) in case no break fires. -/
def pick_loop (pick : ℚ) : ℚ → List (ℚ × TopicRecord) → TopicRecord → TopicRecord
  | _, [], choice => choice
  | acc, (w, t) :: rest, choice =>
    if pick ≤ acc + w then t else pick_loop pick (acc + w) rest choice

/-- Embedding of `services.TopicSelectionService._parse_fallback_line`, one
delimiter attempt: split once, strip both parts, succeed only when both are
nonempty (otherwise the Python loop falls through). -/
def try_delimiter (stripped : String) (delim : Char) : Option TopicSeed :=
  match splitFirst stripped delim with
  | none => none
  | some (a, b) =>
    let title := pyStrip a
    let desc := pyStrip b
    if title ≠ "" ∧ desc ≠ "" then some ⟨title, desc⟩ else none

/-- Embedding of `services.TopicSelectionService._parse_fallback_line`. -/
def parse_fallback_line (line : String) : Option TopicSeed :=
  let stripped := pyStrip line
  if stripped = "" then none
  else
    match try_delimiter stripped '|' with
    | some seed => some seed
    | none =>
      match try_delimiter stripped '｜' with
      | some seed => some seed
      | none => some ⟨stripped, ""⟩

/-- Embedding of `services.TopicSelectionService.pick_topic`.  Randomness is
made explicit: `r` is the `random.random()` draw used by the weighted branch
(`pick = r * total`), and `fallbackIdx` indexes the candidate chosen by
`random.choice` in the fallback branch (reduced modulo the candidate count,
as `random.choice` returns the element at a uniformly drawn index). -/
def pick_topic (topics : List TopicRecord) (fallback_lines : List String) (now : ℚ)
    (r : ℚ) (fallbackIdx : ℕ) : Option SelectedTopic :=
  match topics with
  | t0 :: rest =>
    let weighted := (t0 :: rest).map (fun t => (topic_weight t now, t))
    let total := (weighted.map Prod.fst).sum
    let choice :=
      if total ≤ 0 then t0
      else pick_loop (r * total) 0 weighted (weighted.getLastD (topic_weight t0 now, t0)).2
    some ⟨some choice.id, choice.title, choice.description⟩
  | [] =>
    let candidates := fallback_lines.filterMap parse_fallback_line
    match candidates with
    | [] => none
    | c :: cs =>
      let seed := (c :: cs).getD (fallbackIdx % (c :: cs).length) c
      some ⟨none, seed.title, seed.description⟩

/-- Python `dict` assignment `d[k] = v` over an association list: replaces
the value in place when the key exists (dicts keep insertion position),
appends otherwise. -/
def assocSet {α : Type} : List (String × α) → String → α → List (String × α)
  | [], k, v => [(k, v)]
  | (k0, v0) :: rest, k, v =>
    if k0 = k then (k, v) :: rest else (k0, v0) :: assocSet rest k v

/-- Stored topic entry of the `topics` document (`kv_store.py`); the stored
dict carries exactly the `TopicRecord` fields, so the typed record is reused. -/
structure TopicsBucket where
  next_id : ℤ
  items : List (String × TopicRecord)
deriving DecidableEq, Repr

/-- Embedding of `AstrBotKVStore.mark_topic_used`: missing ids are ignored;
otherwise `use_count` is incremented and `last_used_at`/`updated_at` set to
`now`. -/
def mark_topic_used (b : TopicsBucket) (topic_id : ℤ) (now : ℚ) : TopicsBucket :=
  let key := toString topic_id
  match b.items.lookup key with
  | none => b
  | some item =>
    ⟨b.next_id,
      assocSet b.items key
        { item with use_count := item.use_count + 1, last_used_at := now, updated_at := now }⟩

/-- Embedding of `AstrBotKVStore.bind_stream` on the `streams` document's
`items` mapping: an existing entry keeps its historical timestamps, a fresh
entry starts with `last_user_message_ts = ts` and `last_bot_initiate_ts = 0`. -/
def bind_stream (items : List (String × StreamTarget)) (unified_msg_origin : String)
    (session_name : String) (platform : String) (is_group : Bool) (now : ℚ) :
    List (String × StreamTarget) :=
  let old := items.lookup unified_msg_origin
  assocSet items unified_msg_origin
    { unified_msg_origin := unified_msg_origin
      session_name := session_name
      platform := platform
      is_group := is_group
      active := true
      last_user_message_ts := (old.map (fun s => s.last_user_message_ts)).getD now
      last_bot_initiate_ts := (old.map (fun s => s.last_bot_initiate_ts)).getD 0
      created_at := (old.map (fun s => s.created_at)).getD now
      updated_at := now }

/-- Embedding of `AstrBotKVStore.mark_bot_initiated`: missing origins are
ignored; otherwise `last_bot_initiate_ts`/`updated_at` are set to `now`. -/
def mark_bot_initiated (items : List (String × StreamTarget)) (unified_msg_origin : String)
    (now : ℚ) : List (String × StreamTarget) :=
  match items.lookup unified_msg_origin with
  | none => items
  | some target =>
    assocSet items unified_msg_origin
      { target with last_bot_initiate_ts := now, updated_at := now }

/-- Descending sort by `created_at` (Python
`sorted(queue, key=..., reverse=True)`; both are stable). -/
def sortByCreatedDesc (queue : List MessageSnapshot) : List MessageSnapshot :=
  queue.mergeSort (fun a b => decide (b.created_at ≤ a.created_at))

/-- Embedding of `AstrBotKVStore.append_message` on the `messages` document's
`items` mapping: append the snapshot, sort newest-first, keep the first
`max(max_records, 1)` entries. -/
def append_message (items : List (String × List MessageSnapshot)) (unified_msg_origin : String)
    (sender_id sender_name content : String) (created_at : ℚ) (max_records : ℤ) :
    List (String × List MessageSnapshot) :=
  let queue := (items.lookup unified_msg_origin).getD []
  let queue := queue ++ [⟨unified_msg_origin, sender_id, sender_name, content, created_at⟩]
  let limit := max max_records 1
  let queue := (sortByCreatedDesc queue).take limit.toNat
  assocSet items unified_msg_origin queue

/-- Embedding of `AstrBotKVStore.list_recent_messages`: stored snapshots are
returned newest-first, capped at `max(limit, 1)` (the Python re-coercion of
each stored dict into a `MessageSnapshot` is the identity on the typed
model). -/
def list_recent_messages (items : List (String × List MessageSnapshot))
    (unified_msg_origin : String) (limit : ℤ) : List MessageSnapshot :=
  let queue := (items.lookup unified_msg_origin).getD []
  (sortByCreatedDesc queue).take (max limit 1).toNat

/-- The persisted state touched by one tick: the `streams` and `topics`
documents. -/
structure TickWorld where
  streams : List (String × StreamTarget)
  topics : TopicsBucket
deriving DecidableEq, Repr

/-- Accumulator of `TopicStarterPlugin._run_tick`: the world plus the
running `sent_count` and per-stream `reasons`. -/
structure TickState where
  world : TickWorld
  sent_count : ℕ
  reasons : List String
deriving DecidableEq, Repr

/-- External inputs consumed by one tick, per stream: the minute-of-day for
quiet hours, the random draws, the content produced by
`_build_send_content` (an LLM attempt falling back to the deterministic
renderer — both behind the external provider interface), and the transport
outcome of `context.send_message`. -/
structure TickEnv where
  nowMinutes : ℤ
  engineRandom : StreamTarget → ℚ
  pickRandom : StreamTarget → ℚ
  fallbackIdx : StreamTarget → ℕ
  buildContent : StreamTarget → SelectedTopic → String
  sendOk : String → String → Bool

/-- Embedding of the per-stream loop of `TopicStarterPlugin._run_tick`
(`main.py`): decision gate, topic selection, content build, send, and the
success-only persistence updates, with failures recorded as
`"session_name:reason"` strings and processing continuing with the
remaining streams. -/
def run_tick_streams (settings : PluginSettings) (force : Bool) (now : ℚ) (env : TickEnv)
    (enabled_topics : List TopicRecord) : List StreamTarget → TickState → TickState
  | [], st => st
  | stream :: rest, st =>
    let decision := should_initiate stream settings now env.nowMinutes force
      (env.engineRandom stream)
    if ¬decision.should_send then
      run_tick_streams settings force now env enabled_topics rest
        { st with reasons := st.reasons ++ [stream.session_name ++ ":" ++ decision.reason] }
    else
      match pick_topic enabled_topics settings.fallback_topics now (env.pickRandom stream)
          (env.fallbackIdx stream) with
      | none =>
        run_tick_streams settings force now env enabled_topics rest
          { st with reasons := st.reasons ++ [stream.session_name ++ ":no_topic"] }
      | some selected =>
        let content := env.buildContent stream selected
        if content = "" then
          run_tick_streams settings force now env enabled_topics rest
            { st with reasons := st.reasons ++ [stream.session_name ++ ":empty_content"] }
        else if ¬env.sendOk stream.unified_msg_origin content then
          run_tick_streams settings force now env enabled_topics rest
            { st with reasons := st.reasons ++ [stream.session_name ++ ":send_failed"] }
        else
          let world : TickWorld :=
            { streams := mark_bot_initiated st.world.streams stream.unified_msg_origin now
              topics :=
                match selected.topic_id with
                | some tid => mark_topic_used st.world.topics tid now
                | none => st.world.topics }
          run_tick_streams settings force now env enabled_topics rest
            { world := world, sent_count := st.sent_count + 1, reasons := st.reasons }

/-- First topic of a weighted list whose cumulative weight (starting from
`acc`) meets or exceeds `pick`; `none` when none does. -/
def first_cum (pick : ℚ) : ℚ → List (ℚ × TopicRecord) → Option TopicRecord
  | _, [] => none
  | acc, (w, t) :: rest =>
    if pick ≤ acc + w then some t else first_cum pick (acc + w) rest

/-- Per-topic weight written from claim C4's wording: `staleness_hours =
(now - last_used_at) / 3600` when `last_used_at > 0` (no clamp at zero), a
fixed `24.0` when the topic has never been used.  To be compared with
`topic_weight`, the weight the code computes. -/
def claim_topic_weight (t : TopicRecord) (now : ℚ) : ℚ :=
  let staleness : ℚ := if t.last_used_at > 0 then (now - t.last_used_at) / 3600 else 24
  ((max t.priority 1 : ℤ) : ℚ) * (1 + min (staleness / 24) 2)

/-- Topic selection written from claim C4's wording, for a non-empty topic
list: weights per `claim_topic_weight`, draw `r * total`, first topic whose
cumulative weight meets or exceeds the draw, first topic deterministically
when the total weight is `≤ 0`. -/
def pick_topic_claim (topics : List TopicRecord) (now r : ℚ) : Option SelectedTopic :=
  match topics with
  | [] => none
  | t0 :: rest =>
    let weighted := (t0 :: rest).map (fun t => (claim_topic_weight t now, t))
    let total := (weighted.map Prod.fst).sum
    if total ≤ 0 then some ⟨some t0.id, t0.title, t0.description⟩
    else
      match first_cum (r * total) 0 weighted with
      | some t => some ⟨some t.id, t.title, t.description⟩
      | none => none

/-- Fallback-line parsing written from claim C5's wording: a line containing
`|` or `｜` is split on the first such delimiter (whichever occurs first in
the line) into (title, description) with both parts stripped; a line with no
delimiter becomes (whole stripped line, empty description); a blank line is
discarded.  To be compared with `parse_fallback_line`, the code's behaviour. -/
def parse_fallback_line_claim (line : String) : Option TopicSeed :=
  let stripped := pyStrip line
  if stripped = "" then none
  else
    match splitAtChar (fun c => c = '|' ∨ c = '｜') stripped.toList with
    | some (a, b) => some ⟨pyStrip (String.mk a), pyStrip (String.mk b)⟩
    | none => some ⟨stripped, ""⟩

/-- Fallback-line parsing written from the amended wording of claim C5: the
half-width delimiter `|` is tried first (at its first occurrence), then the
full-width `｜`; a split is accepted only when both stripped parts are
nonempty; any other non-blank line becomes (whole stripped line, empty
description); blank lines are discarded. -/
def parse_fallback_line_amended (line : String) : Option TopicSeed :=
  let stripped := pyStrip line
  if stripped = "" then none
  else
    let attempt := fun (delim : Char) =>
      match splitFirstChar delim stripped.toList with
      | some (a, b) =>
        let title := pyStrip (String.mk a)
        let desc := pyStrip (String.mk b)
        if title = "" ∨ desc = "" then none else some (⟨title, desc⟩ : TopicSeed)
      | none => none
    some (((attempt '|').orElse (fun _ => attempt '｜')).getD ⟨stripped, ""⟩)

/-- Well-formedness domain of a quiet-hours "HH:MM" value, written from
claim C7's wording: the fields of a value whose text form consists of
exactly two `:`-separated parts, both parsing as integers, with the hour in
`0..23` and the minute in `0..59`.  `none` marks exactly the malformed or
out-of-range values (including the empty text), for which the claim demands
the field's default. -/
def hhmm_fields (v : PyVal) : Option (ℤ × ℤ) :=
  let text := as_non_empty_text v ""
  if text = "" then none
  else
    match (text.toList.splitOn ':').map String.mk with
    | [hs, ms] =>
      match pyIntOfStr hs, pyIntOfStr ms with
      | some hour, some minute =>
        if 0 ≤ hour ∧ hour ≤ 23 ∧ 0 ≤ minute ∧ minute ≤ 59 then some (hour, minute)
        else none
      | _, _ => none
    | _ => none

theorem lookup_assocSet_self {α : Type} (l : List (String × α)) (k : String) (v : α) :
    (assocSet l k v).lookup k = some v := by
  induction l with
  | nil => simp [assocSet, List.lookup]
  | cons hd tl ih =>
    obtain ⟨k0, v0⟩ := hd
    by_cases h : k0 = k
    · simp [assocSet, h, List.lookup]
    · have hb : (k == k0) = false := beq_eq_false_iff_ne.mpr (Ne.symm h)
      simp [assocSet, h, List.lookup, hb, ih]

theorem lookup_assocSet_other {α : Type} (l : List (String × α)) (k k2 : String) (v : α)
    (h : k2 ≠ k) : (assocSet l k v).lookup k2 = l.lookup k2 := by
  induction l with
  | nil =>
    have hb : (k2 == k) = false := beq_eq_false_iff_ne.mpr h
    simp [assocSet, List.lookup, hb]
  | cons hd tl ih =>
    obtain ⟨k0, v0⟩ := hd
    by_cases h0 : k0 = k
    · subst h0
      have hb : (k2 == k0) = false := beq_eq_false_iff_ne.mpr h
      simp [assocSet, List.lookup, hb]
    · simp only [assocSet, if_neg h0]
      by_cases h2 : k2 = k0
      · simp [List.lookup, h2]
      · have hb : (k2 == k0) = false := beq_eq_false_iff_ne.mpr h2
        simp [List.lookup, hb, ih]

theorem should_initiate_soft_gates (stream : StreamTarget) (settings : PluginSettings)
    (now : ℚ) (nowMinutes : ℤ) (r : ℚ)
    (henabled : settings.enabled = true) (hactive : stream.active = true)
    (hquiet : settings.quiet_hours.is_active nowMinutes = false) :
    should_initiate stream settings now nowMinutes false r =
      if stream.last_bot_initiate_ts > 0 ∧
          now - stream.last_bot_initiate_ts < (settings.cooldown_seconds : ℚ) then
        ⟨false, "cooldown"⟩
      else if stream.last_user_message_ts > 0 ∧
          now - stream.last_user_message_ts < (settings.silence_seconds : ℚ) then
        ⟨false, "conversation_active"⟩
      else if r ≥ settings.trigger_probability then ⟨false, "random_gate"⟩
      else ⟨true, "ready"⟩ := by
  simp [should_initiate, henabled, hactive, hquiet]

/-- C1: with `force = true`, the decision is `plugin_disabled` when the
plugin-wide enabled flag is off, `stream_inactive` when the stream is
inactive, and otherwise success with reason `force` — independent of the
quiet-hours clock, cooldown, silence and the probability draw (none of
`now`, `nowMinutes`, `randomValue` occur on the right-hand side). -/
theorem C1_force_hard_gates (stream : StreamTarget) (settings : PluginSettings)
    (now : ℚ) (nowMinutes : ℤ) (randomValue : ℚ) :
    should_initiate stream settings now nowMinutes true randomValue =
      if settings.enabled = false then ⟨false, "plugin_disabled"⟩
      else if stream.active = false then ⟨false, "stream_inactive"⟩
      else ⟨true, "force"⟩ := by
  by_cases h1 : settings.enabled <;> by_cases h2 : stream.active <;>
    simp [should_initiate, h1, h2]

/-- C3: quiet-hours evaluation — never active when disabled; for a
non-degenerate window, active on `[start, end)` when `start < end` and on
the wraparound complement when `start > end`; always active when
`start = end`; and the concrete checks for the 23:00 – 08:00 window. -/
theorem C3_quiet_hours (qh : QuietHours) (c : ℤ) :
    (qh.enabled = false → qh.is_active c = false) ∧
    (qh.enabled = true → qh.start_minutes = qh.end_minutes → qh.is_active c = true) ∧
    (qh.enabled = true → qh.start_minutes < qh.end_minutes →
      (qh.is_active c = true ↔ qh.start_minutes ≤ c ∧ c < qh.end_minutes)) ∧
    (qh.enabled = true → qh.end_minutes < qh.start_minutes →
      (qh.is_active c = true ↔ c ≥ qh.start_minutes ∨ c < qh.end_minutes)) ∧
    QuietHours.is_active ⟨true, 1380, 480⟩ 1410 = true ∧
    QuietHours.is_active ⟨true, 1380, 480⟩ 180 = true ∧
    QuietHours.is_active ⟨true, 1380, 480⟩ 720 = false := by
  refine ⟨?_, ?_, ?_, ?_, by decide, by decide, by decide⟩
  · intro h
    simp [QuietHours.is_active, h]
  · intro h1 h2
    simp [QuietHours.is_active, h1, h2]
  · intro h1 h2
    have hne : qh.start_minutes ≠ qh.end_minutes := by omega
    simp [QuietHours.is_active, h1, hne, h2, decide_eq_true_eq]
  · intro h1 h2
    have hne : qh.start_minutes ≠ qh.end_minutes := by omega
    have hnlt : ¬qh.start_minutes < qh.end_minutes := by omega
    simp [QuietHours.is_active, h1, hne, hnlt, decide_eq_true_eq]

theorem C3_quiet_hours_witness :
    QuietHours.is_active ⟨false, 0, 100⟩ 50 = false ∧
    QuietHours.is_active ⟨true, 100, 100⟩ 7 = true ∧
    (QuietHours.is_active ⟨true, 100, 200⟩ 150 = true ↔ (100 : ℤ) ≤ 150 ∧ (150 : ℤ) < 200) ∧
    (QuietHours.is_active ⟨true, 1380, 480⟩ 10 = true ↔ (10 : ℤ) ≥ 1380 ∨ (10 : ℤ) < 480) :=
  ⟨(C3_quiet_hours ⟨false, 0, 100⟩ 50).1 rfl,
   (C3_quiet_hours ⟨true, 100, 100⟩ 7).2.1 rfl rfl,
   (C3_quiet_hours ⟨true, 100, 200⟩ 150).2.2.1 rfl (by decide),
   (C3_quiet_hours ⟨true, 1380, 480⟩ 10).2.2.2.1 rfl (by decide)⟩

/-- C2: for an enabled plugin, an active stream, quiet hours inactive, and
no forcing — the cooldown and silence gates block on strict inequality only
(`now - last_ts = threshold` passes, `= threshold - 1` blocks), and a zero
`last_bot_initiate_ts` (resp. `last_user_message_ts`) skips the cooldown
(resp. silence) gate entirely. -/
theorem C2_strict_boundaries (stream : StreamTarget) (settings : PluginSettings)
    (now : ℚ) (nowMinutes : ℤ) (r : ℚ)
    (henabled : settings.enabled = true) (hactive : stream.active = true)
    (hquiet : settings.quiet_hours.is_active nowMinutes = false) :
    (stream.last_bot_initiate_ts > 0 →
      now - stream.last_bot_initiate_ts = (settings.cooldown_seconds : ℚ) →
      (should_initiate stream settings now nowMinutes false r).reason ≠ "cooldown") ∧
    (stream.last_bot_initiate_ts > 0 →
      now - stream.last_bot_initiate_ts = (settings.cooldown_seconds : ℚ) - 1 →
      should_initiate stream settings now nowMinutes false r = ⟨false, "cooldown"⟩) ∧
    (stream.last_user_message_ts > 0 →
      now - stream.last_user_message_ts < (settings.silence_seconds : ℚ) →
      ¬(stream.last_bot_initiate_ts > 0 ∧
          now - stream.last_bot_initiate_ts < (settings.cooldown_seconds : ℚ)) →
      should_initiate stream settings now nowMinutes false r =
        ⟨false, "conversation_active"⟩) ∧
    (stream.last_user_message_ts > 0 →
      now - stream.last_user_message_ts = (settings.silence_seconds : ℚ) →
      (should_initiate stream settings now nowMinutes false r).reason ≠
        "conversation_active") ∧
    (stream.last_bot_initiate_ts = 0 →
      (should_initiate stream settings now nowMinutes false r).reason ≠ "cooldown") ∧
    (stream.last_user_message_ts = 0 →
      (should_initiate stream settings now nowMinutes false r).reason ≠
        "conversation_active") := by
  rw [should_initiate_soft_gates stream settings now nowMinutes r henabled hactive hquiet]
  refine ⟨?_, ?_, ?_, ?_, ?_, ?_⟩
  · intro h1 h2
    have hnc : ¬(stream.last_bot_initiate_ts > 0 ∧
        now - stream.last_bot_initiate_ts < (settings.cooldown_seconds : ℚ)) := by
      rintro ⟨-, hlt⟩
      rw [h2] at hlt
      exact absurd hlt (lt_irrefl _)
    rw [if_neg hnc]
    split_ifs <;> simp
  · intro h1 h2
    have hlt : now - stream.last_bot_initiate_ts < (settings.cooldown_seconds : ℚ) := by
      rw [h2]; linarith
    rw [if_pos ⟨h1, hlt⟩]
  · intro h1 h2 h3
    rw [if_neg h3, if_pos ⟨h1, h2⟩]
  · intro h1 h2
    have hns : ¬(stream.last_user_message_ts > 0 ∧
        now - stream.last_user_message_ts < (settings.silence_seconds : ℚ)) := by
      rintro ⟨-, hlt⟩
      rw [h2] at hlt
      exact absurd hlt (lt_irrefl _)
    split_ifs with hc hs <;> simp_all
  · intro h1
    have hnc : ¬(stream.last_bot_initiate_ts > 0 ∧
        now - stream.last_bot_initiate_ts < (settings.cooldown_seconds : ℚ)) := by
      rintro ⟨hgt, -⟩
      rw [h1] at hgt
      exact absurd hgt (lt_irrefl _)
    rw [if_neg hnc]
    split_ifs <;> simp
  · intro h1
    have hns : ¬(stream.last_user_message_ts > 0 ∧
        now - stream.last_user_message_ts < (settings.silence_seconds : ℚ)) := by
      rintro ⟨hgt, -⟩
      rw [h1] at hgt
      exact absurd hgt (lt_irrefl _)
    rw [if_neg hns]
    split_ifs <;> simp

theorem C2_strict_boundaries_witness :
    should_initiate ⟨"o", "s", "p", false, true, 0, 100, 0, 0⟩
      ⟨true, 300, 3 / 10, 1800, 600, 20, true, "none", [], 120, "", [], ⟨false, 1380, 480⟩⟩
      (100 + 1799) 720 false 0 = ⟨false, "cooldown"⟩ :=
  (C2_strict_boundaries ⟨"o", "s", "p", false, true, 0, 100, 0, 0⟩
      ⟨true, 300, 3 / 10, 1800, 600, 20, true, "none", [], 120, "", [], ⟨false, 1380, 480⟩⟩
      (100 + 1799) 720 0 rfl rfl (by decide)).2.1 (by norm_num) (by norm_num)

theorem try_delimiter_eq (s : String) (d : Char) :
    try_delimiter s d =
      match splitFirstChar d s.toList with
      | some (a, b) =>
        if pyStrip (String.mk a) = "" ∨ pyStrip (String.mk b) = "" then none
        else some ⟨pyStrip (String.mk a), pyStrip (String.mk b)⟩
      | none => none := by
  simp only [try_delimiter, splitFirst]
  cases h : splitFirstChar d s.toList with
  | none => simp
  | some p =>
    obtain ⟨a, b⟩ := p
    by_cases t1 : pyStrip (String.mk a) = "" <;> by_cases t2 : pyStrip (String.mk b) = "" <;>
      simp [t1, t2]

/-- C5 counterexample: the code does not split every delimiter-bearing line.
`"a|"` contains `|` but its description part strips to empty, so the code
yields title `"a|"` with empty description, while the claim's parsing rule
yields `("a", "")`; and `"x｜y|z"` is split by the code at the half-width `|`
even though the full-width `｜` occurs first in the line, while the claim's
first-delimiter rule splits at `｜`. -/
theorem C5_counterexample :
    parse_fallback_line "a|" = some ⟨"a|", ""⟩ ∧
    parse_fallback_line_claim "a|" = some ⟨"a", ""⟩ ∧
    parse_fallback_line "x｜y|z" = some ⟨"x｜y", "z"⟩ ∧
    parse_fallback_line_claim "x｜y|z" = some ⟨"x", "y|z"⟩ :=
  ⟨by decide, by decide, by decide, by decide⟩

/-- C5 (amended): a delimiter split is accepted only when both stripped
parts are nonempty, and the half-width `|` is tried before the full-width
`｜` (each at its first occurrence); any other non-blank line becomes the
whole-line title with empty description; blank lines are discarded
(`parse_fallback_line` is `none` exactly on blank lines); and, when no
topics are supplied, `pick_topic` returns `none` exactly when no fallback
line survives parsing. -/
theorem C5_fallback_parsing (lines : List String) (now r : ℚ) (k : ℕ) :
    (pick_topic [] lines now r k = none ↔ lines.filterMap parse_fallback_line = []) ∧
    (∀ line, parse_fallback_line line = parse_fallback_line_amended line) ∧
    (∀ line, parse_fallback_line line = none ↔ pyStrip line = "") := by
  refine ⟨?_, ?_, ?_⟩
  · cases h : lines.filterMap parse_fallback_line with
    | nil => simp [pick_topic, h]
    | cons c cs => simp [pick_topic, h]
  · intro line
    simp only [parse_fallback_line, parse_fallback_line_amended, try_delimiter_eq,
      String.toList]
    by_cases hb : pyStrip line = ""
    · simp [hb]
    · simp only [if_neg hb]
      cases h1 : splitFirstChar '|' (pyStrip line).data with
      | none =>
        cases h2 : splitFirstChar '｜' (pyStrip line).data with
        | none => simp [Option.orElse, Option.getD]
        | some p =>
          obtain ⟨a, b⟩ := p
          by_cases t1 : pyStrip (String.mk a) = "" <;>
            by_cases t2 : pyStrip (String.mk b) = "" <;>
            simp [t1, t2, Option.orElse, Option.getD]
      | some p =>
        obtain ⟨a, b⟩ := p
        by_cases t1 : pyStrip (String.mk a) = ""
        · cases h2 : splitFirstChar '｜' (pyStrip line).data with
          | none => simp [t1, Option.orElse, Option.getD]
          | some p2 =>
            obtain ⟨a2, b2⟩ := p2
            by_cases u1 : pyStrip (String.mk a2) = "" <;>
              by_cases u2 : pyStrip (String.mk b2) = "" <;>
              simp [t1, u1, u2, Option.orElse, Option.getD]
        · by_cases t2 : pyStrip (String.mk b) = ""
          · cases h2 : splitFirstChar '｜' (pyStrip line).data with
            | none => simp [t1, t2, Option.orElse, Option.getD]
            | some p2 =>
              obtain ⟨a2, b2⟩ := p2
              by_cases u1 : pyStrip (String.mk a2) = "" <;>
                by_cases u2 : pyStrip (String.mk b2) = "" <;>
                simp [t1, t2, u1, u2, Option.orElse, Option.getD]
          · simp [t1, t2, Option.orElse, Option.getD]
  · intro line
    by_cases hb : pyStrip line = ""
    · simp [parse_fallback_line, hb]
    · simp only [parse_fallback_line, if_neg hb]
      cases h1 : try_delimiter (pyStrip line) '|' <;>
        cases h2 : try_delimiter (pyStrip line) '｜' <;> simp [hb]

theorem first_cum_eq_pick_loop (l : List (ℚ × TopicRecord)) (pick : ℚ) (d : TopicRecord) :
    ∀ acc : ℚ, l ≠ [] → pick ≤ acc + (l.map Prod.fst).sum →
      first_cum pick acc l = some (pick_loop pick acc l d) := by
  induction l with
  | nil => intro acc hne _; exact absurd rfl hne
  | cons hd tl ih =>
    intro acc _ hle
    obtain ⟨w, t⟩ := hd
    by_cases h : pick ≤ acc + w
    · simp [first_cum, pick_loop, h]
    · have hsum : pick ≤ acc + (w + (tl.map Prod.fst).sum) := by simpa using hle
      have htl : tl ≠ [] := by
        rintro rfl
        simp at hsum
        exact h hsum
      simp only [first_cum, pick_loop, if_neg h]
      exact ih (acc + w) htl (by linarith [hsum])

theorem first_cum_mem (l : List (ℚ × TopicRecord)) (pick : ℚ) (t : TopicRecord) :
    ∀ acc : ℚ, first_cum pick acc l = some t → t ∈ l.map Prod.snd := by
  induction l with
  | nil => intro acc h; simp [first_cum] at h
  | cons hd tl ih =>
    intro acc h
    obtain ⟨w, t0⟩ := hd
    by_cases hc : pick ≤ acc + w
    · simp only [first_cum, if_pos hc, Option.some.injEq] at h
      simp [h]
    · simp only [first_cum, if_neg hc] at h
      simp [ih (acc + w) h]

/-- C4 counterexample: for a topic whose `last_used_at` lies in the future
of `now`, the claim's unclamped staleness formula `(now - last_used_at)/3600`
gives weight `-2`, while the code clamps staleness at zero
(`max(now - last_used_at, 0.0)`) and gives weight `1`.  With a second,
never-used topic (weight `2`) the difference is observable: under the
claim's rule the total weight is `0 ≤ 0`, so the first topic is returned
deterministically, while the code's total is `3` and the draw `r = 1/2`
selects the second topic. -/
theorem C4_counterexample :
    topic_weight ⟨1, "A", "", 1, true, 0, 1259200, 0, 0⟩ 1000000 = 1 ∧
    claim_topic_weight ⟨1, "A", "", 1, true, 0, 1259200, 0, 0⟩ 1000000 = -2 ∧
    pick_topic [⟨1, "A", "", 1, true, 0, 1259200, 0, 0⟩, ⟨2, "B", "", 1, true, 0, 0, 0, 0⟩]
        [] 1000000 (1 / 2) 0 = some ⟨some 2, "B", ""⟩ ∧
    pick_topic_claim [⟨1, "A", "", 1, true, 0, 1259200, 0, 0⟩, ⟨2, "B", "", 1, true, 0, 0, 0, 0⟩]
        1000000 (1 / 2) = some ⟨some 1, "A", ""⟩ := by
  refine ⟨?_, ?_, ?_, ?_⟩ <;>
    norm_num [topic_weight, freshness_boost, staleness_hours, claim_topic_weight,
      pick_topic, pick_loop, pick_topic_claim, first_cum]

/-- C4 (amended): for a non-empty topic list, each topic's weight is
`max(priority, 1) * (1 + freshness_boost)` with
`freshness_boost = min(staleness_hours / 24, 2.0)` and `staleness_hours =
max(now - last_used_at, 0) / 3600` when `last_used_at ≠ 0`, else a fixed
`24.0`; with a draw `r ∈ [0, 1)` the selected topic is the first whose
cumulative weight meets or exceeds `r * total`; a total weight `≤ 0` returns
the first topic deterministically; the result always carries the id of one
of the input topics, and the fallback lines are never consulted. -/
theorem C4_weighted_selection (t0 : TopicRecord) (rest : List TopicRecord)
    (fallback_lines : List String) (now r : ℚ) (k : ℕ)
    (hr0 : 0 ≤ r) (hr1 : r < 1) :
    ∃ choice : TopicRecord,
      pick_topic (t0 :: rest) fallback_lines now r k =
        some ⟨some choice.id, choice.title, choice.description⟩ ∧
      choice ∈ t0 :: rest ∧
      ((((t0 :: rest).map (fun t => topic_weight t now)).sum ≤ 0) → choice = t0) ∧
      (0 < ((t0 :: rest).map (fun t => topic_weight t now)).sum →
        first_cum (r * ((t0 :: rest).map (fun t => topic_weight t now)).sum) 0
          ((t0 :: rest).map (fun t => (topic_weight t now, t))) = some choice) ∧
      (∀ t ∈ t0 :: rest, topic_weight t now =
        ((max t.priority 1 : ℤ) : ℚ) *
          (1 + min ((if t.last_used_at ≠ 0 then max (now - t.last_used_at) 0 / 3600 else 24)
              / 24) 2)) ∧
      pick_topic (t0 :: rest) fallback_lines now r k = pick_topic (t0 :: rest) [] now r k := by
  have hmapmap : (((t0 :: rest).map (fun t => (topic_weight t now, t))).map Prod.fst).sum =
      ((t0 :: rest).map (fun t => topic_weight t now)).sum := by
    simp [List.map_map, Function.comp_def]
  have hmapsnd : (((t0 :: rest).map (fun t => (topic_weight t now, t))).map Prod.snd) =
      t0 :: rest := by
    simp [List.map_map, Function.comp_def]
  have hform : ∀ t ∈ t0 :: rest, topic_weight t now =
      ((max t.priority 1 : ℤ) : ℚ) *
        (1 + min ((if t.last_used_at ≠ 0 then max (now - t.last_used_at) 0 / 3600 else 24)
            / 24) 2) := by
    intro t _
    simp [topic_weight, freshness_boost, staleness_hours]
  by_cases htot : ((t0 :: rest).map (fun t => topic_weight t now)).sum ≤ 0
  · refine ⟨t0, ?_, by simp, fun _ => rfl,
      fun hpos => absurd hpos (not_lt.mpr htot), hform, rfl⟩
    simp only [pick_topic]
    rw [hmapmap, if_pos htot]
  · push_neg at htot
    have hpickle : r * ((t0 :: rest).map (fun t => topic_weight t now)).sum ≤
        0 + (((t0 :: rest).map (fun t => (topic_weight t now, t))).map Prod.fst).sum := by
      rw [hmapmap, zero_add]
      nlinarith
    refine ⟨pick_loop (r * ((t0 :: rest).map (fun t => topic_weight t now)).sum) 0
        ((t0 :: rest).map (fun t => (topic_weight t now, t)))
        (((t0 :: rest).map (fun t => (topic_weight t now, t))).getLastD
          (topic_weight t0 now, t0)).2, ?_, ?_, ?_, ?_, hform, rfl⟩
    · simp only [pick_topic]
      rw [hmapmap, if_neg (not_le.mpr htot)]
    · have hfc := first_cum_eq_pick_loop ((t0 :: rest).map (fun t => (topic_weight t now, t)))
        (r * ((t0 :: rest).map (fun t => topic_weight t now)).sum)
        (((t0 :: rest).map (fun t => (topic_weight t now, t))).getLastD
          (topic_weight t0 now, t0)).2 0 (by simp) hpickle
      have hmem := first_cum_mem ((t0 :: rest).map (fun t => (topic_weight t now, t)))
        (r * ((t0 :: rest).map (fun t => topic_weight t now)).sum) _ 0 hfc
      rwa [hmapsnd] at hmem
    · intro hle
      exact absurd htot (not_lt.mpr hle)
    · intro _
      exact first_cum_eq_pick_loop _ _ _ 0 (by simp) hpickle

theorem C4_weighted_selection_witness :
    (0 : ℚ) ≤ 1 / 2 ∧ (1 / 2 : ℚ) < 1 ∧
    ∃ choice : TopicRecord,
      pick_topic [⟨2, "B", "", 1, true, 0, 0, 0, 0⟩] ["x|y"] 1000 (1 / 2) 0 =
        some ⟨some choice.id, choice.title, choice.description⟩ ∧
      choice ∈ [(⟨2, "B", "", 1, true, 0, 0, 0, 0⟩ : TopicRecord)] ∧
      ((((([⟨2, "B", "", 1, true, 0, 0, 0, 0⟩] : List TopicRecord)).map
          (fun t => topic_weight t 1000)).sum ≤ 0) →
        choice = ⟨2, "B", "", 1, true, 0, 0, 0, 0⟩) ∧
      (0 < ((([⟨2, "B", "", 1, true, 0, 0, 0, 0⟩] : List TopicRecord)).map
          (fun t => topic_weight t 1000)).sum →
        first_cum ((1 / 2) * ((([⟨2, "B", "", 1, true, 0, 0, 0, 0⟩] : List TopicRecord)).map
            (fun t => topic_weight t 1000)).sum) 0
          ((([⟨2, "B", "", 1, true, 0, 0, 0, 0⟩] : List TopicRecord)).map
            (fun t => (topic_weight t 1000, t))) = some choice) ∧
      (∀ t ∈ [(⟨2, "B", "", 1, true, 0, 0, 0, 0⟩ : TopicRecord)], topic_weight t 1000 =
        ((max t.priority 1 : ℤ) : ℚ) *
          (1 + min ((if t.last_used_at ≠ 0 then max (1000 - t.last_used_at) 0 / 3600 else 24)
              / 24) 2)) ∧
      pick_topic [⟨2, "B", "", 1, true, 0, 0, 0, 0⟩] ["x|y"] 1000 (1 / 2) 0 =
        pick_topic [⟨2, "B", "", 1, true, 0, 0, 0, 0⟩] [] 1000 (1 / 2) 0 :=
  ⟨by norm_num, by norm_num,
    C4_weighted_selection ⟨2, "B", "", 1, true, 0, 0, 0, 0⟩ [] ["x|y"] 1000 (1 / 2) 0
      (by norm_num) (by norm_num)⟩

theorem sorted_sortByCreatedDesc (l : List MessageSnapshot) :
    List.Sorted (fun a b => b.created_at ≤ a.created_at) (sortByCreatedDesc l) := by
  have h := @List.sorted_mergeSort MessageSnapshot
    (fun a b => decide (b.created_at ≤ a.created_at))
    (fun a b c hab hbc => by
      simp only [decide_eq_true_eq] at *
      exact le_trans hbc hab)
    (fun a b => by
      simp only [Bool.or_eq_true, decide_eq_true_eq]
      exact le_total b.created_at a.created_at)
    l
  exact h.imp (fun hab => of_decide_eq_true hab)

theorem perm_sortByCreatedDesc (l : List MessageSnapshot) :
    (sortByCreatedDesc l).Perm l :=
  List.mergeSort_perm l _

/-- C6: appending a snapshot keeps at most `message_window_size` entries per
stream — the retained list has length `min (old + 1) window`, so appending
beyond the cap retains exactly the window's count — the entries dropped are
the oldest by `created_at` (every evicted snapshot is no newer than every
kept one), and both the stored list and the `list_recent_messages` read-back
are ordered newest-first (descending `created_at`). -/
theorem C6_message_window (items : List (String × List MessageSnapshot))
    (origin sender_id sender_name content : String) (created_at : ℚ) (w : ℤ)
    (hw : 1 ≤ w) (queue kept : List MessageSnapshot)
    (hqueue : queue = (items.lookup origin).getD [])
    (hkept : kept =
      ((append_message items origin sender_id sender_name content created_at w).lookup
        origin).getD []) :
    kept.length = min (queue.length + 1) w.toNat ∧
    List.Sorted (fun a b => b.created_at ≤ a.created_at) kept ∧
    (∃ evicted,
      (kept ++ evicted).Perm
        (queue ++ [⟨origin, sender_id, sender_name, content, created_at⟩]) ∧
      ∀ a ∈ kept, ∀ b ∈ evicted, b.created_at ≤ a.created_at) ∧
    (∀ (items2 : List (String × List MessageSnapshot)) (origin2 : String) (limit : ℤ),
      List.Sorted (fun a b => b.created_at ≤ a.created_at)
        (list_recent_messages items2 origin2 limit)) := by
  have hmax : max w 1 = w := max_eq_left hw
  have hkept2 : kept =
      (sortByCreatedDesc (queue ++ [⟨origin, sender_id, sender_name, content, created_at⟩])).take
        w.toNat := by
    rw [hkept]
    simp only [append_message, lookup_assocSet_self, Option.getD_some, hmax, hqueue]
  refine ⟨?_, ?_, ?_, ?_⟩
  · rw [hkept2, List.length_take, sortByCreatedDesc, List.length_mergeSort]
    simp [Nat.min_comm]
  · rw [hkept2]
    exact (sorted_sortByCreatedDesc _).sublist (List.take_sublist _ _)
  · refine ⟨(sortByCreatedDesc
        (queue ++ [⟨origin, sender_id, sender_name, content, created_at⟩])).drop w.toNat,
      ?_, ?_⟩
    · rw [hkept2, List.take_append_drop]
      exact perm_sortByCreatedDesc _
    · intro a ha b hb
      have hsorted := sorted_sortByCreatedDesc
        (queue ++ [⟨origin, sender_id, sender_name, content, created_at⟩])
      have hsplit := List.pairwise_append.mp (by
        rwa [List.take_append_drop
          w.toNat (sortByCreatedDesc
            (queue ++ [⟨origin, sender_id, sender_name, content, created_at⟩]))])
      exact hsplit.2.2 a (by rwa [hkept2] at ha) b hb
  · intro items2 origin2 limit
    exact (sorted_sortByCreatedDesc _).sublist (List.take_sublist _ _)

theorem C6_message_window_witness :
    (1 : ℤ) ≤ 2 ∧
    ([] : List MessageSnapshot) = (([] : List (String × List MessageSnapshot)).lookup "o").getD [] ∧
    ∃ kept : List MessageSnapshot,
      kept = ((append_message [] "o" "s" "n" "hi" 5 2).lookup "o").getD [] ∧
      (kept.length = min (([] : List MessageSnapshot).length + 1) (2 : ℤ).toNat ∧
        List.Sorted (fun a b => b.created_at ≤ a.created_at) kept ∧
        (∃ evicted, (kept ++ evicted).Perm ([] ++ [⟨"o", "s", "n", "hi", 5⟩]) ∧
          ∀ a ∈ kept, ∀ b ∈ evicted, b.created_at ≤ a.created_at) ∧
        (∀ (items2 : List (String × List MessageSnapshot)) (origin2 : String) (limit : ℤ),
          List.Sorted (fun a b => b.created_at ≤ a.created_at)
            (list_recent_messages items2 origin2 limit))) :=
  ⟨by norm_num, rfl,
    ((append_message [] "o" "s" "n" "hi" 5 2).lookup "o").getD [], rfl,
    C6_message_window [] "o" "s" "n" "hi" 5 2 (by norm_num) [] _ rfl rfl⟩

theorem parse_time_hhmm_eq_fields (v : PyVal) (d : ℤ) :
    parse_time_hhmm v d = ((hhmm_fields v).map (fun p => p.1 * 60 + p.2)).getD d := by
  simp only [parse_time_hhmm, hhmm_fields]
  by_cases ht : as_non_empty_text v "" = ""
  · simp [ht]
  · simp only [if_neg ht]
    cases hp : ((as_non_empty_text v "").toList.splitOn ':').map String.mk with
    | nil => rfl
    | cons a tl =>
      cases tl with
      | nil => rfl
      | cons b tl2 =>
        cases tl2 with
        | cons c tl3 => rfl
        | nil =>
          cases hia : pyIntOfStr a with
          | none => simp [hia]
          | some hour =>
            cases hib : pyIntOfStr b with
            | none => simp [hia, hib]
            | some minute =>
              by_cases hcond : 0 ≤ hour ∧ hour ≤ 23 ∧ 0 ≤ minute ∧ minute ≤ 59
              · have hrange : ¬(hour < 0 ∨ hour > 23 ∨ minute < 0 ∨ minute > 59) := by omega
                simp [hia, hib, hcond, hrange]
              · have hrange : hour < 0 ∨ hour > 23 ∨ minute < 0 ∨ minute > 59 := by omega
                simp [hia, hib, hcond, hrange]

theorem hhmm_fields_in_range (v : PyVal) (hour minute : ℤ)
    (h : hhmm_fields v = some (hour, minute)) :
    0 ≤ hour ∧ hour ≤ 23 ∧ 0 ≤ minute ∧ minute ≤ 59 := by
  simp only [hhmm_fields] at h
  by_cases ht : as_non_empty_text v "" = ""
  · rw [if_pos ht] at h
    exact Option.noConfusion h
  · rw [if_neg ht] at h
    revert h
    cases hp : ((as_non_empty_text v "").toList.splitOn ':').map String.mk with
    | nil => intro h; exact Option.noConfusion h
    | cons a tl =>
      cases tl with
      | nil => intro h; exact Option.noConfusion h
      | cons b tl2 =>
        cases tl2 with
        | cons c tl3 => intro h; exact Option.noConfusion h
        | nil =>
          cases hia : pyIntOfStr a with
          | none => intro h; simp [hia] at h
          | some hour2 =>
            cases hib : pyIntOfStr b with
            | none => intro h; simp [hia, hib] at h
            | some minute2 =>
              intro h
              simp only [hia, hib] at h
              by_cases hcond : 0 ≤ hour2 ∧ hour2 ≤ 23 ∧ 0 ≤ minute2 ∧ minute2 ≤ 59
              · rw [if_pos hcond] at h
                simp only [Option.some.injEq, Prod.mk.injEq] at h
                obtain ⟨h1, h2⟩ := h
                subst h1
                subst h2
                exact hcond
              · rw [if_neg hcond] at h
                exact Option.noConfusion h

/-- C7: `PluginSettings.from_config` is a total function of the raw mapping
(the embedding never raises by construction) and its numeric fields always
land in the documented ranges; `parse_time_hhmm` returns the field's
default on every malformed or out-of-range value (`hhmm_fields v = none`,
which holds exactly when the text form is not two `:`-separated in-range
integer fields — e.g. "25:00", "ab:cd", "7:8:9") and `hour * 60 + minute`
with in-range parts on every well-formed one; and a `fallback_topics` value
that is neither a string nor a list normalizes to the empty list. -/
theorem C7_settings_clamped (config : Option (List (String × PyVal))) :
    60 ≤ (PluginSettings.from_config config).tick_interval_seconds ∧
    0 ≤ (PluginSettings.from_config config).trigger_probability ∧
    (PluginSettings.from_config config).trigger_probability ≤ 1 ∧
    0 ≤ (PluginSettings.from_config config).cooldown_seconds ∧
    0 ≤ (PluginSettings.from_config config).silence_seconds ∧
    1 ≤ (PluginSettings.from_config config).message_window_size ∧
    20 ≤ (PluginSettings.from_config config).max_message_chars ∧
    (∀ (v : PyVal) (d : ℤ), hhmm_fields v = none → parse_time_hhmm v d = d) ∧
    (∀ (v : PyVal) (d hour minute : ℤ), hhmm_fields v = some (hour, minute) →
      (0 ≤ hour ∧ hour ≤ 23 ∧ 0 ≤ minute ∧ minute ≤ 59) ∧
      parse_time_hhmm v d = hour * 60 + minute) ∧
    parse_time_hhmm (PyVal.str "25:00") 77 = 77 ∧
    parse_time_hhmm (PyVal.str "ab:cd") 77 = 77 ∧
    parse_time_hhmm (PyVal.str "7:8:9") 77 = 77 ∧
    (∀ v : PyVal, (match v with | .str _ => False | .list _ => False | _ => True) →
      normalize_topic_lines v = []) := by
  refine ⟨?_, ?_, ?_, ?_, ?_, ?_, ?_, ?_, ?_, by decide, by decide, by decide, ?_⟩
  · simp only [PluginSettings.from_config]
    exact le_max_right _ _
  · simp only [PluginSettings.from_config]
    exact le_min (le_max_right _ _) zero_le_one
  · simp only [PluginSettings.from_config]
    exact min_le_right _ _
  · simp only [PluginSettings.from_config]
    exact le_max_right _ _
  · simp only [PluginSettings.from_config]
    exact le_max_right _ _
  · simp only [PluginSettings.from_config]
    exact le_max_right _ _
  · simp only [PluginSettings.from_config]
    exact le_max_right _ _
  · intro v d hnone
    rw [parse_time_hhmm_eq_fields, hnone]
    rfl
  · intro v d hour minute hsome
    refine ⟨hhmm_fields_in_range v hour minute hsome, ?_⟩
    rw [parse_time_hhmm_eq_fields, hsome]
    rfl
  · intro v hv
    cases v <;> simp_all [normalize_topic_lines]

theorem C7_settings_clamped_witness :
    60 ≤ (PluginSettings.from_config none).tick_interval_seconds ∧
    parse_time_hhmm (PyVal.str "not-a-time") 123 = 123 ∧
    (((0 : ℤ) ≤ 8 ∧ (8 : ℤ) ≤ 23 ∧ (0 : ℤ) ≤ 30 ∧ (30 : ℤ) ≤ 59) ∧
      parse_time_hhmm (PyVal.str "8:30") 0 = 8 * 60 + 30) ∧
    normalize_topic_lines (PyVal.int 3) = [] :=
  ⟨(C7_settings_clamped none).1,
   (C7_settings_clamped none).2.2.2.2.2.2.2.1 (PyVal.str "not-a-time") 123 (by decide),
   (C7_settings_clamped none).2.2.2.2.2.2.2.2.1 (PyVal.str "8:30") 0 8 30 (by decide),
   (C7_settings_clamped none).2.2.2.2.2.2.2.2.2.2.2.2 (PyVal.int 3) (by trivial)⟩

/-- C8: in the tick loop, a stream that reaches the send step and whose send
fails is recorded as `session_name:send_failed` and the loop continues with
the remaining streams on an unchanged world (no stream or topic document is
touched); on a successful send the world records `mark_bot_initiated` for
the stream and, exactly when the selected topic has a non-null id,
`mark_topic_used` for that topic — which updates the stream's
`last_bot_initiate_ts` to `now` and increments the topic's `use_count`
while stamping its `last_used_at`. -/
theorem C8_send_failure_frame (settings : PluginSettings) (force : Bool) (now : ℚ)
    (env : TickEnv) (enabled_topics : List TopicRecord) (stream : StreamTarget)
    (rest : List StreamTarget) (st : TickState) (selected : SelectedTopic)
    (hd : (should_initiate stream settings now env.nowMinutes force
      (env.engineRandom stream)).should_send = true)
    (hs : pick_topic enabled_topics settings.fallback_topics now (env.pickRandom stream)
      (env.fallbackIdx stream) = some selected)
    (hne : env.buildContent stream selected ≠ "") :
    (env.sendOk stream.unified_msg_origin (env.buildContent stream selected) = false →
      run_tick_streams settings force now env enabled_topics (stream :: rest) st =
        run_tick_streams settings force now env enabled_topics rest
          { st with reasons := st.reasons ++ [stream.session_name ++ ":send_failed"] }) ∧
    (env.sendOk stream.unified_msg_origin (env.buildContent stream selected) = true →
      run_tick_streams settings force now env enabled_topics (stream :: rest) st =
        run_tick_streams settings force now env enabled_topics rest
          { world :=
              { streams := mark_bot_initiated st.world.streams stream.unified_msg_origin now
                topics :=
                  match selected.topic_id with
                  | some tid => mark_topic_used st.world.topics tid now
                  | none => st.world.topics }
            sent_count := st.sent_count + 1
            reasons := st.reasons }) ∧
    (∀ s0, st.world.streams.lookup stream.unified_msg_origin = some s0 →
      (mark_bot_initiated st.world.streams stream.unified_msg_origin now).lookup
        stream.unified_msg_origin =
        some { s0 with last_bot_initiate_ts := now, updated_at := now }) ∧
    (∀ (tid : ℤ) (item : TopicRecord),
      st.world.topics.items.lookup (toString tid) = some item →
      (mark_topic_used st.world.topics tid now).items.lookup (toString tid) =
        some { item with
          use_count := item.use_count + 1
          last_used_at := now
          updated_at := now }) := by
  refine ⟨?_, ?_, ?_, ?_⟩
  · intro hsend
    simp [run_tick_streams, hd, hs, hne, hsend]
  · intro hsend
    simp [run_tick_streams, hd, hs, hne, hsend]
  · intro s0 h0
    simp only [mark_bot_initiated, h0]
    exact lookup_assocSet_self _ _ _
  · intro tid item hit
    simp only [mark_topic_used, hit]
    exact lookup_assocSet_self _ _ _

theorem C8_send_failure_witness :
    run_tick_streams ⟨true, 300, 3 / 10, 1800, 600, 20, true, "none", [], 120, "", [],
        ⟨false, 1380, 480⟩⟩ true 1000
      ⟨720, fun _ => 0, fun _ => 0, fun _ => 0, fun _ _ => "hi", fun _ _ => false⟩
      [⟨2, "B", "", 1, true, 0, 0, 0, 0⟩]
      [⟨"o", "s", "p", false, true, 0, 0, 0, 0⟩] ⟨⟨[], ⟨1, []⟩⟩, 0, []⟩ =
      run_tick_streams ⟨true, 300, 3 / 10, 1800, 600, 20, true, "none", [], 120, "", [],
        ⟨false, 1380, 480⟩⟩ true 1000
      ⟨720, fun _ => 0, fun _ => 0, fun _ => 0, fun _ _ => "hi", fun _ _ => false⟩
      [⟨2, "B", "", 1, true, 0, 0, 0, 0⟩] []
      ⟨⟨[], ⟨1, []⟩⟩, 0, [] ++ ["s" ++ ":send_failed"]⟩ :=
  (C8_send_failure_frame
      ⟨true, 300, 3 / 10, 1800, 600, 20, true, "none", [], 120, "", [], ⟨false, 1380, 480⟩⟩
      true 1000 ⟨720, fun _ => 0, fun _ => 0, fun _ => 0, fun _ _ => "hi", fun _ _ => false⟩
      [⟨2, "B", "", 1, true, 0, 0, 0, 0⟩] ⟨"o", "s", "p", false, true, 0, 0, 0, 0⟩ []
      ⟨⟨[], ⟨1, []⟩⟩, 0, []⟩ ⟨some 2, "B", ""⟩ rfl
      (by norm_num [pick_topic, pick_loop, topic_weight, freshness_boost, staleness_hours])
      (by decide)).1 rfl

/-- C9: rebinding an already-present origin keeps its stored
`last_user_message_ts`, `last_bot_initiate_ts` and `created_at`, sets
`active := true`, refreshes `updated_at` to the bind time, and leaves every
other stream's entry unchanged. -/
theorem C9_rebind_preserves (items : List (String × StreamTarget))
    (origin session_name platform : String) (is_group : Bool) (now : ℚ)
    (old : StreamTarget) (hold : items.lookup origin = some old) :
    (bind_stream items origin session_name platform is_group now).lookup origin =
      some ⟨origin, session_name, platform, is_group, true, old.last_user_message_ts,
        old.last_bot_initiate_ts, old.created_at, now⟩ ∧
    ∀ k, k ≠ origin →
      (bind_stream items origin session_name platform is_group now).lookup k =
        items.lookup k := by
  constructor
  · simp only [bind_stream, hold, Option.map_some', Option.getD_some]
    exact lookup_assocSet_self _ _ _
  · intro k hk
    simp only [bind_stream]
    exact lookup_assocSet_other _ _ _ _ hk

theorem C9_rebind_preserves_witness :
    (bind_stream [("o", ⟨"o", "n0", "p0", false, false, 11, 22, 33, 44⟩)]
        "o" "n1" "p1" true 99).lookup "o" =
      some ⟨"o", "n1", "p1", true, true, 11, 22, 33, 99⟩ ∧
    ∀ k, k ≠ "o" →
      (bind_stream [("o", ⟨"o", "n0", "p0", false, false, 11, 22, 33, 44⟩)]
          "o" "n1" "p1" true 99).lookup k =
        [("o", (⟨"o", "n0", "p0", false, false, 11, 22, 33, 44⟩ : StreamTarget))].lookup k :=
  C9_rebind_preserves [("o", ⟨"o", "n0", "p0", false, false, 11, 22, 33, 44⟩)]
    "o" "n1" "p1" true 99 ⟨"o", "n0", "p0", false, false, 11, 22, 33, 44⟩ (by decide)

/-- C10: binding an origin that has no stored entry initializes
`last_user_message_ts` to the bind time (not zero) and
`last_bot_initiate_ts` to zero, so under a non-forced evaluation (plugin
enabled, stream freshly active, quiet hours inactive) the new stream is
blocked by the silence gate with reason `conversation_active` whenever less
than `silence_seconds` has elapsed since binding, while the cooldown gate
can never fire for it. -/
theorem C10_fresh_bind (items : List (String × StreamTarget))
    (origin session_name platform : String) (is_group : Bool)
    (settings : PluginSettings) (bindTime now2 : ℚ) (m : ℤ) (r : ℚ)
    (hnew : items.lookup origin = none)
    (henabled : settings.enabled = true)
    (hquiet : settings.quiet_hours.is_active m = false)
    (hpos : 0 < bindTime) :
    ∃ s : StreamTarget,
      (bind_stream items origin session_name platform is_group bindTime).lookup origin =
        some s ∧
      s.last_user_message_ts = bindTime ∧
      s.last_bot_initiate_ts = 0 ∧
      s.active = true ∧
      (should_initiate s settings now2 m false r).reason ≠ "cooldown" ∧
      (now2 - bindTime < (settings.silence_seconds : ℚ) →
        should_initiate s settings now2 m false r = ⟨false, "conversation_active"⟩) := by
  refine ⟨⟨origin, session_name, platform, is_group, true, bindTime, 0, bindTime, bindTime⟩,
    ?_, rfl, rfl, rfl, ?_, ?_⟩
  · simp only [bind_stream, hnew, Option.map_none', Option.getD_none]
    exact lookup_assocSet_self _ _ _
  · rw [should_initiate_soft_gates _ settings now2 m r henabled rfl hquiet]
    have hnc : ¬((0 : ℚ) > 0 ∧ now2 - 0 < (settings.cooldown_seconds : ℚ)) := by
      rintro ⟨hgt, -⟩
      exact absurd hgt (lt_irrefl _)
    rw [if_neg hnc]
    split_ifs <;> simp
  · intro hsil
    rw [should_initiate_soft_gates _ settings now2 m r henabled rfl hquiet]
    have hnc : ¬((0 : ℚ) > 0 ∧ now2 - 0 < (settings.cooldown_seconds : ℚ)) := by
      rintro ⟨hgt, -⟩
      exact absurd hgt (lt_irrefl _)
    rw [if_neg hnc, if_pos ⟨hpos, hsil⟩]

theorem C10_fresh_bind_witness :
    ∃ s : StreamTarget,
      (bind_stream [] "o" "n" "p" false 50).lookup "o" = some s ∧
      s.last_user_message_ts = 50 ∧
      s.last_bot_initiate_ts = 0 ∧
      s.active = true ∧
      (should_initiate s
        ⟨true, 300, 3 / 10, 1800, 600, 20, true, "none", [], 120, "", [], ⟨false, 1380, 480⟩⟩
        70 720 false 0).reason ≠ "cooldown" ∧
      (70 - 50 <
          ((⟨true, 300, 3 / 10, 1800, 600, 20, true, "none", [], 120, "", [],
            ⟨false, 1380, 480⟩⟩ : PluginSettings).silence_seconds : ℚ) →
        should_initiate s
          ⟨true, 300, 3 / 10, 1800, 600, 20, true, "none", [], 120, "", [], ⟨false, 1380, 480⟩⟩
          70 720 false 0 = ⟨false, "conversation_active"⟩) :=
  C10_fresh_bind [] "o" "n" "p" false
    ⟨true, 300, 3 / 10, 1800, 600, 20, true, "none", [], 120, "", [], ⟨false, 1380, 480⟩⟩
    50 70 720 0 rfl rfl (by decide) (by norm_num)

end TopicStarter
